import Mathlib

/-
Verification development for the Watch restart supervisor (main.go).

The program supervises re-executions of a fixed command: a notification
loop enqueues restart signals on a one-slot channel (`needrun`), a
supervisor loop (`runner` / `termRunner`) consumes them, kills the
previous process, bumps a generation counter (`run.id`) and starts a new
invocation, and a per-invocation relay goroutine drains the combined
output pipe and forwards chunks to the acme window only while its
captured generation is still current.

The shallow embedding below models:
  - the one-slot coalescing channel send (`select` with `default`) as
    `offer`;
  - event qualification in `main`'s log-read loop as `qualifies` and the
    conditional enqueue as `notifyStep`;
  - the environment builder `envOf`;
  - the windowed supervisor as a labelled transition system `step` over
    `WatchState`: one `Act.signal` action runs a whole `runner` loop
    iteration (expressed as the ordered list of micro-events
    `iterMicros`, folded by `microStep`), while `Act.chunk` and
    `Act.finish` are the interleavable steps of the per-invocation relay
    goroutines;
  - the terminal-mode supervisor `termRunner` as `termIterate`.

The sink (acme window) is modelled by the list of operations forwarded
to it (`SinkOp`), annotated with the generation of the relay that issued
them; `renderBody` replays those operations into the visible body
content, with `SinkOp.clear` modelling `win.Addr(","); win.Write("data",
nil)`.
-/

namespace Watch

/-- One acme log event, as read by `acme.Log().Read()` in `main`:
a file name, an operation kind, and a window id. -/
structure LogEvent where
  name : String
  op : String
  id : Int
deriving DecidableEq

/-- Non-blocking send on the one-slot `needrun` channel:
`select { case needrun <- c: default: }`.  The channel state is
`none` (empty) or `some p` (a pending signal `p`). -/
def offer {α : Type} (pending : Option α) (c : α) : Option α :=
  match pending with
  | none => some c
  | some _ => pending

/-- Go's `strings.HasPrefix(s, pre)`: the characters of `pre` are a
prefix of the characters of `s`. -/
def hasPrefixGo (s pre : String) : Bool :=
  pre.data.isPrefixOf s.data

/-- Event qualification in `main`'s log-read loop (main.go line 79):
`event.Name != "" && event.Op == "put" && strings.HasPrefix(event.Name, pwd)
&& re.MatchString(event.Name)`.  The compiled regular expression is
abstracted as its match function `m` on strings. -/
def qualifies (m : String → Bool) (pwd : String) (e : LogEvent) : Bool :=
  e.name != "" && e.op == "put" && hasPrefixGo e.name pwd && m e.name

/-- Effect of one log event on the `needrun` channel: a qualifying event
attempts the non-blocking enqueue of `some e`, a non-qualifying event
does nothing. -/
def notifyStep (m : String → Bool) (pwd : String) (e : LogEvent)
    (pending : Option (Option LogEvent)) : Option (Option LogEvent) :=
  if qualifies m pwd e then offer pending (some e) else pending

/-- The key of an environment entry: `strings.Split(v, "=")[0]`, i.e. the
part of the string before the first `=`. -/
def keyOf (v : String) : String :=
  String.mk (v.data.takeWhile (fun c => c ≠ '='))

/-- The three reserved environment keys removed (and possibly re-added)
by `envOf`. -/
def reservedKey (k : String) : Bool :=
  k == "samfile" || k == "%" || k == "winid"

/-- The environment builder `envOf` (main.go lines 114-133): filter the
ambient environment, dropping entries whose key is `samfile`, `%` or
`winid`; with no event return the filtered list, otherwise append the
three keys bound to the event's name (twice) and window id. -/
def envOf (environ : List String) (event : Option LogEvent) : List String :=
  let filtered := environ.filter (fun v => !reservedKey (keyOf v))
  match event with
  | none => filtered
  | some e =>
      filtered ++ ["samfile=" ++ e.name, "%=" ++ e.name,
        "winid=" ++ toString e.id]

/-- Go's `filepath.Base` for slash-separated paths: `""` gives `"."`,
trailing slashes are stripped, a path of only slashes gives `"/"`, and
otherwise the component after the last slash is returned.  (Used by the
older revision of the program, which matched the pattern against the
base name; the current `main.go` matches the full name.) -/
def baseName (path : String) : String :=
  if path = "" then "."
  else
    let r := path.data.reverse.dropWhile (fun c => c = '/')
    if r = [] then "/"
    else String.mk ((r.takeWhile (fun c => c ≠ '/')).reverse)

/-- The command line shown in sink text: `strings.Join(args, " ")`. -/
def cmdline (args : List String) : String := String.intercalate " " args

/-- The header line written at the top of each run: `"$ %s\n"`. -/
def headerText (args : List String) : String := "$ " ++ cmdline args ++ "\n"

/-- An error line: `"%s: %s\n"` with the command line and the error. -/
def errLineText (args : List String) (err : String) : String :=
  cmdline args ++ ": " ++ err ++ "\n"

/-- One operation forwarded to the sink (the acme window), annotated
with the generation of the relay goroutine that issued it where there is
one.  `clear` is `win.Addr(","); win.Write("data", nil)`; `clean` is
`win.Ctl("clean")`; `resetCursor` is `win.Fprintf("addr", "#0");
win.Ctl("dot=addr"); win.Ctl("show")`. -/
inductive SinkOp where
  | clear : SinkOp
  | clean : SinkOp
  | header (line : String) : SinkOp
  | chunk (g : Nat) (data : String) : SinkOp
  | waitErr (g : Nat) (line : String) : SinkOp
  | startErr (line : String) : SinkOp
  | marker (g : Nat) : SinkOp
  | resetCursor (g : Nat) : SinkOp
deriving DecidableEq

/-- Supervisor state for the windowed mode (`runner`): the generation
counter `run.id`, the tracked previous command `lastcmd` (identified by
the generation of its invocation), the generations of live relay
goroutines, the ghost append-only list of generations ever handed to a
relay (in launch order), the ghost list of processes killed (in kill
order), and the full log of operations forwarded to the sink. -/
structure WatchState where
  runId : Nat
  lastcmd : Option Nat
  relays : List Nat
  launched : List Nat
  killed : List Nat
  sink : List SinkOp

/-- Micro-events of one `runner` loop iteration, in source order:
`incr` is `run.Lock(); run.id++; id := run.id; run.Unlock()`;
`kill p` is `lastcmd.Process.Kill()`; `untrack` is `lastcmd = nil`;
`emit op` forwards one operation to the sink; `track` is
`lastcmd = cmd` plus launching the relay goroutine bound to the
captured generation. -/
inductive Micro where
  | incr : Micro
  | kill (p : Nat) : Micro
  | untrack : Micro
  | emit (op : SinkOp) : Micro
  | track : Micro

/-- Effect of one micro-event on the supervisor state. -/
def microStep (s : WatchState) : Micro → WatchState
  | Micro.incr => { s with runId := s.runId + 1 }
  | Micro.kill p => { s with killed := s.killed ++ [p] }
  | Micro.untrack => { s with lastcmd := none }
  | Micro.emit op => { s with sink := s.sink ++ [op] }
  | Micro.track =>
      { s with lastcmd := some s.runId,
               relays := s.relays ++ [s.runId],
               launched := s.launched ++ [s.runId] }

/-- The micro-events of one `runner` iteration (main.go lines 158-186),
in the order the source performs them: increment and capture the
generation; kill the previous command if tracked; clear the tracking
reference; erase the window body, mark clean, write the header line;
then either record the new invocation and launch its relay (`ok`), or
write the start-failure line and continue (`!ok`, with error text
`err`). -/
def iterMicros (args : List String) (s : WatchState) (ok : Bool)
    (err : String) : List Micro :=
  [Micro.incr]
  ++ (match s.lastcmd with
      | some p => [Micro.kill p]
      | none => [])
  ++ [Micro.untrack, Micro.emit SinkOp.clear, Micro.emit SinkOp.clean,
      Micro.emit (SinkOp.header (headerText args))]
  ++ (if ok then [Micro.track]
      else [Micro.emit (SinkOp.startErr (errLineText args err))])

/-- Operations forwarded to the sink by a finishing relay goroutine
(main.go lines 200-211): if `cmd.Wait()` returned an error, the failure
line is written only under `id == run.id`; the end-of-run marker
`"$\n"`, the cursor reset and the final `clean` are written
unconditionally. -/
def finishOps (args : List String) (s : WatchState) (g : Nat)
    (w : Option String) : List SinkOp :=
  (match w with
   | some m => if g = s.runId then [SinkOp.waitErr g (errLineText args m)]
               else []
   | none => [])
  ++ [SinkOp.marker g, SinkOp.resetCursor g, SinkOp.clean]

/-- Interleavable actions of the windowed system: `signal` is one whole
`runner` loop iteration consuming one `needrun` signal (`ok` says
whether `cmd.Start()` succeeds, `err` is the error text otherwise);
`chunk g d` is one read of `d` by the relay bound to generation `g`
followed by the generation-gated forward (main.go lines 187-199);
`finish g w` is that relay reaching end-of-stream, with `w` the error of
`cmd.Wait()` if any. -/
inductive Act where
  | signal (ok : Bool) (err : String) : Act
  | chunk (g : Nat) (data : String) : Act
  | finish (g : Nat) (w : Option String) : Act

/-- One transition of the windowed system. -/
def step (args : List String) (s : WatchState) : Act → WatchState
  | Act.signal ok err => (iterMicros args s ok err).foldl microStep s
  | Act.chunk g d =>
      if g ∈ s.relays then
        if g = s.runId then { s with sink := s.sink ++ [SinkOp.chunk g d] }
        else s
      else s
  | Act.finish g w =>
      if g ∈ s.relays then
        { s with sink := s.sink ++ finishOps args s g w,
                 relays := s.relays.filter (fun x => x != g) }
      else s

/-- The initial supervisor state: `run.id` is zero, nothing tracked,
no relays, empty window. -/
def initState : WatchState :=
  { runId := 0, lastcmd := none, relays := [], launched := [], killed := [],
    sink := [] }

/-- Run a whole schedule of actions from the initial state. -/
def runTrace (args : List String) (acts : List Act) : WatchState :=
  acts.foldl (step args) initState

/-- Replay one sink operation against the visible body content (a list
of appended text pieces): `clear` erases everything, text writes append
their piece, control operations leave the body unchanged. -/
def renderOp (acc : List String) : SinkOp → List String
  | SinkOp.clear => []
  | SinkOp.clean => acc
  | SinkOp.header l => acc ++ [l]
  | SinkOp.chunk _ d => acc ++ [d]
  | SinkOp.waitErr _ l => acc ++ [l]
  | SinkOp.startErr l => acc ++ [l]
  | SinkOp.marker _ => acc ++ ["$\n"]
  | SinkOp.resetCursor _ => acc

/-- The visible body content after a log of sink operations. -/
def renderBody (ops : List SinkOp) : List String :=
  ops.foldl renderOp []

/-- Terminal-mode (`-t`) supervisor state for `termRunner`: the tracked
previous command, a counter supplying process identities, the ghost
lists of started and killed processes, and the error lines written by
the supervisor itself (never the child's own output). -/
structure TermState where
  lastcmd : Option Nat
  nextPid : Nat
  started : List Nat
  killed : List Nat
  errLines : List String

/-- One `termRunner` loop iteration (main.go lines 135-154): kill the
previous command if tracked, clear the tracking reference, attempt the
start; on failure `continue` with no output and no tracking; on success
track the new command.  `termRunner` never writes anything itself. -/
def termIterate (s : TermState) (ok : Bool) : TermState :=
  let s1 : TermState :=
    { s with killed := s.killed ++ (match s.lastcmd with
                                    | some p => [p]
                                    | none => []),
             lastcmd := none }
  if ok then
    { s1 with lastcmd := some s1.nextPid,
              started := s1.started ++ [s1.nextPid],
              nextPid := s1.nextPid + 1 }
  else s1

/-- The initial terminal-mode state. -/
def termInit : TermState :=
  { lastcmd := none, nextPid := 1, started := [], killed := [],
    errLines := [] }

/-- Characterization of one whole `runner` iteration: the generation is
incremented exactly once; on success the new invocation is tracked and
its relay launched at the new generation; on failure nothing is tracked;
the previously tracked process (if any) is killed; the sink receives the
clear, clean and header operations and, on failure, the start-error
line. -/
theorem signal_char (args : List String) (s : WatchState) (ok : Bool)
    (err : String) :
    step args s (Act.signal ok err)
      = { runId := s.runId + 1,
          lastcmd := if ok then some (s.runId + 1) else none,
          relays := if ok then s.relays ++ [s.runId + 1] else s.relays,
          launched := if ok then s.launched ++ [s.runId + 1]
                      else s.launched,
          killed := s.killed ++ (match s.lastcmd with
                                 | some p => [p]
                                 | none => []),
          sink := (s.sink ++ [SinkOp.clear, SinkOp.clean,
                    SinkOp.header (headerText args)])
                  ++ (if ok then []
                      else [SinkOp.startErr (errLineText args err)]) } := by
  cases s with
  | mk runId lastcmd relays launched killed sink =>
      cases lastcmd <;> cases ok <;>
        simp [step, iterMicros, microStep, List.foldl_cons, List.foldl_nil]

/-- Generation counter after one iteration: incremented exactly once. -/
theorem signal_runId (args : List String) (s : WatchState) (ok : Bool)
    (err : String) :
    (step args s (Act.signal ok err)).runId = s.runId + 1 := by
  rw [signal_char]

/-- Launch log after a successful start: the new generation appended. -/
theorem signal_launched_true (args : List String) (s : WatchState)
    (err : String) :
    (step args s (Act.signal true err)).launched
      = s.launched ++ [s.runId + 1] := by
  rw [signal_char]
  simp

/-- Launch log after a failed start: unchanged. -/
theorem signal_launched_false (args : List String) (s : WatchState)
    (err : String) :
    (step args s (Act.signal false err)).launched = s.launched := by
  rw [signal_char]
  simp

/-- A relay chunk step never changes the generation counter, the
tracking reference, the launch log or the kill log. -/
theorem chunk_frame (args : List String) (s : WatchState) (g : Nat)
    (d : String) :
    (step args s (Act.chunk g d)).runId = s.runId
    ∧ (step args s (Act.chunk g d)).launched = s.launched
    ∧ (step args s (Act.chunk g d)).lastcmd = s.lastcmd
    ∧ (step args s (Act.chunk g d)).killed = s.killed := by
  simp only [step]
  split
  · split
    · simp
    · simp
  · simp

/-- A relay finish step never changes the generation counter, the
tracking reference, the launch log or the kill log. -/
theorem finish_frame (args : List String) (s : WatchState) (g : Nat)
    (w : Option String) :
    (step args s (Act.finish g w)).runId = s.runId
    ∧ (step args s (Act.finish g w)).launched = s.launched
    ∧ (step args s (Act.finish g w)).lastcmd = s.lastcmd
    ∧ (step args s (Act.finish g w)).killed = s.killed := by
  by_cases h1 : g ∈ s.relays <;> simp [step, h1]

/-- Generation invariant: the generations handed to relay goroutines are
strictly increasing in launch order, and all of them are bounded by the
current counter. -/
def GenInv (s : WatchState) : Prop :=
  List.Pairwise (· < ·) s.launched ∧ ∀ g ∈ s.launched, g ≤ s.runId

theorem genInv_init : GenInv initState :=
  ⟨List.Pairwise.nil, fun g hg => absurd hg (List.not_mem_nil g)⟩

theorem genInv_step (args : List String) (s : WatchState) (a : Act)
    (h : GenInv s) : GenInv (step args s a) := by
  obtain ⟨hp, hb⟩ := h
  cases a with
  | signal ok err =>
      cases ok with
      | false =>
          refine ⟨?_, ?_⟩
          · rw [signal_launched_false]
            exact hp
          · intro g hg
            rw [signal_launched_false] at hg
            rw [signal_runId]
            exact Nat.le_succ_of_le (hb g hg)
      | true =>
          refine ⟨?_, ?_⟩
          · rw [signal_launched_true, List.pairwise_append]
            refine ⟨hp, ?_, ?_⟩
            · exact List.Pairwise.cons
                (fun b hb' => absurd hb' (List.not_mem_nil b))
                List.Pairwise.nil
            · intro a ha b hb'
              rw [List.mem_singleton] at hb'
              subst hb'
              exact Nat.lt_succ_of_le (hb a ha)
          · intro g hg
            rw [signal_launched_true] at hg
            rw [signal_runId]
            rcases List.mem_append.mp hg with h | h
            · exact Nat.le_succ_of_le (hb g h)
            · rw [List.mem_singleton] at h
              exact Nat.le_of_eq h
  | chunk g d =>
      obtain ⟨hr, hl, _, _⟩ := chunk_frame args s g d
      constructor
      · rw [hl]; exact hp
      · intro g' hg'
        rw [hl] at hg'
        rw [hr]
        exact hb g' hg'
  | finish g w =>
      obtain ⟨hr, hl, _, _⟩ := finish_frame args s g w
      constructor
      · rw [hl]; exact hp
      · intro g' hg'
        rw [hl] at hg'
        rw [hr]
        exact hb g' hg'

theorem genInv_fold (args : List String) (acts : List Act) :
    ∀ s : WatchState, GenInv s → GenInv (acts.foldl (step args) s) := by
  induction acts with
  | nil => intro s h; exact h
  | cons a rest ih =>
      intro s h
      exact ih _ (genInv_step args s a h)

/-- Concrete state after one successful start: generation 1 tracked and
its relay live. -/
def W1 : WatchState := runTrace ["make"] [Act.signal true ""]

/-- Concrete state after a successful start followed by a failed start. -/
def W2 : WatchState :=
  runTrace ["make"] [Act.signal true "", Act.signal false "file not found"]

/-- Concrete state after two successful starts: generation 1's relay is
still draining while generation 2 is current. -/
def W3 : WatchState :=
  runTrace ["make"] [Act.signal true "", Act.signal true ""]

/-- Claim C1: for every output chunk read by a relay task bound to
generation `g`, the chunk is forwarded to the sink if and only if `g`
equals the current generation at the locked check: when current, the
chunk is appended verbatim to the sink log; when stale, the whole state
is unchanged, so the chunk never reaches the sink. -/
theorem c1_chunk_forward_gating (args : List String) (s : WatchState)
    (g : Nat) (d : String) (hg : g ∈ s.relays) :
    (g = s.runId →
      (step args s (Act.chunk g d)).sink = s.sink ++ [SinkOp.chunk g d])
    ∧ (g ≠ s.runId → step args s (Act.chunk g d) = s) := by
  constructor
  · intro h
    subst h
    simp [step, hg]
  · intro h
    simp [step, hg, h]

theorem c1_chunk_forward_gating_witness :
    (step ["make"] W1 (Act.chunk 1 "ok\n")).sink
        = W1.sink ++ [SinkOp.chunk 1 "ok\n"]
    ∧ step ["make"] W3 (Act.chunk 1 "late\n") = W3 :=
  ⟨(c1_chunk_forward_gating ["make"] W1 1 "ok\n" (by decide)).1 (by decide),
   (c1_chunk_forward_gating ["make"] W3 1 "late\n" (by decide)).2 (by decide)⟩

/-- Claim C2 counterexample: after generation 1 is superseded by
generation 2, the relay bound to generation 1 finishing its stream still
forwards the end-of-run marker (and the cursor-reset and clean
housekeeping) to the sink, although its generation is not current. -/
theorem c2_counterexample :
    SinkOp.marker 1 ∈ (step ["make"] W3 (Act.finish 1 none)).sink
    ∧ SinkOp.resetCursor 1 ∈ (step ["make"] W3 (Act.finish 1 none)).sink
    ∧ (step ["make"] W3 (Act.finish 1 none)).runId = 2 := by
  decide

/-- Claim C2 (amended): when the relay bound to generation `g` reaches
end of stream, the exit-failure line is forwarded only if `g` is still
current, but the end-of-run marker and the cursor-reset/mark-unmodified
housekeeping are forwarded unconditionally, whether or not `g` is still
current. -/
theorem c2_marker_unconditional (args : List String) (s : WatchState)
    (g : Nat) (w : Option String) (hg : g ∈ s.relays) :
    (step args s (Act.finish g w)).sink
      = s.sink
        ++ (match w with
            | some m =>
                if g = s.runId then [SinkOp.waitErr g (errLineText args m)]
                else []
            | none => [])
        ++ [SinkOp.marker g, SinkOp.resetCursor g, SinkOp.clean] := by
  simp [step, hg, finishOps]

theorem c2_marker_unconditional_witness :
    (step ["make"] W3 (Act.finish 1 none)).sink
      = W3.sink ++ [SinkOp.marker 1, SinkOp.resetCursor 1, SinkOp.clean] :=
  c2_marker_unconditional ["make"] W3 1 none (by decide)

/-- Claim C3: the generation is incremented exactly once per supervisor
iteration, never decremented by any action, and the generations captured
by successive relay tasks are strictly increasing in launch order (so no
value is ever reused). -/
theorem c3_generation_monotone (args : List String) :
    (∀ (s : WatchState) (ok : Bool) (err : String),
        (step args s (Act.signal ok err)).runId = s.runId + 1)
    ∧ (∀ (s : WatchState) (a : Act), s.runId ≤ (step args s a).runId)
    ∧ (∀ acts : List Act,
        List.Pairwise (· < ·) (runTrace args acts).launched) := by
  refine ⟨?_, ?_, ?_⟩
  · intro s ok err
    exact signal_runId args s ok err
  · intro s a
    cases a with
    | signal ok err =>
        rw [signal_runId]
        exact Nat.le_succ _
    | chunk g d =>
        rw [(chunk_frame args s g d).1]
    | finish g w =>
        rw [(finish_frame args s g w).1]
  · intro acts
    exact (genInv_fold args acts initState genInv_init).1

/-- Micro-event recognizer: the generation increment. -/
def isIncr : Micro → Bool
  | Micro.incr => true
  | _ => false

/-- Micro-event recognizer: a termination request. -/
def isKill : Micro → Bool
  | Micro.kill _ => true
  | _ => false

/-- Claim C4 counterexample: in an iteration that receives a signal
while invocation 1 is tracked, the kill of the previous process does not
occur before the generation increment — the increment is the first
micro-event and the kill only follows it. -/
theorem c4_counterexample :
    W1.lastcmd = some 1
    ∧ (iterMicros ["make"] W1 true "").any isKill = true
    ∧ ¬ ((iterMicros ["make"] W1 true "").findIdx isKill
          < (iterMicros ["make"] W1 true "").findIdx isIncr) := by
  decide

/-- Claim C4 (amended): in every supervisor iteration that receives a
signal while a previous invocation is tracked, the generation counter is
incremented and the new value captured first, and only then is
termination of the previous invocation's process requested: the
iteration's micro-events begin with the increment followed immediately
by the kill. -/
theorem c4_increment_before_kill (args : List String) (s : WatchState)
    (ok : Bool) (err : String) (p : Nat) (h : s.lastcmd = some p) :
    (iterMicros args s ok err).take 2 = [Micro.incr, Micro.kill p] := by
  simp [iterMicros, h]

theorem c4_increment_before_kill_witness :
    (iterMicros ["make"] W1 true "").take 2
      = [Micro.incr, Micro.kill 1] :=
  c4_increment_before_kill ["make"] W1 true "" 1 (by decide)

/-- Claim C5 counterexample: a failed start does not leave the
previously tracked process reference available: entering the failing
iteration invocation 1 was tracked, but afterwards nothing is tracked,
and the next iteration requests no termination (its kill log is
unchanged). -/
theorem c5_counterexample :
    W1.lastcmd = some 1
    ∧ W2.lastcmd = none
    ∧ (step ["make"] W2 (Act.signal true "")).killed = W2.killed := by
  decide

/-- Claim C5 (amended): in every supervisor iteration in which the start
fails, no new invocation is registered (no relay is launched and the
launch log is unchanged), and the tracking reference — already cleared
before the start attempt, after the previous process was signalled — is
left empty, so no process reference remains for termination on the next
iteration. -/
theorem c5_failure_clears_tracking (args : List String) (s : WatchState)
    (err : String) :
    (step args s (Act.signal false err)).lastcmd = none
    ∧ (step args s (Act.signal false err)).launched = s.launched
    ∧ (step args s (Act.signal false err)).relays = s.relays := by
  rw [signal_char]
  simp

/-- Claim C6 counterexample: in terminal (`-t`) mode, a failed start
writes no error line at all — `termRunner` silently skips to the next
signal — contradicting the claim that the failure is reported as an
error line in both output modes. -/
theorem c6_counterexample :
    (termIterate termInit false).errLines = []
    ∧ (termIterate (termIterate termInit true) false).errLines = [] := by
  decide

/-- Claim C6 (amended): a failed start never aborts either supervisor
loop and never retries without a new signal.  In windowed mode the
failure is reported as exactly one error line naming the command and the
error (after the clear, clean and header operations), no invocation is
registered, and the loop stays responsive: a subsequent signal starts a
fresh invocation at the next generation.  In terminal mode the failure
is silently skipped: no error line is written, nothing is started or
tracked, and the loop likewise proceeds to the next signal. -/
theorem c6_start_failure_behavior (args : List String) (s : WatchState)
    (err err2 : String) (ts : TermState) :
    (step args s (Act.signal false err)).sink
      = s.sink ++ [SinkOp.clear, SinkOp.clean,
          SinkOp.header (headerText args),
          SinkOp.startErr (errLineText args err)]
    ∧ (step args s (Act.signal false err)).launched = s.launched
    ∧ (step args (step args s (Act.signal false err))
          (Act.signal true err2)).launched = s.launched ++ [s.runId + 2]
    ∧ (termIterate ts false).errLines = ts.errLines
    ∧ (termIterate ts false).started = ts.started
    ∧ (termIterate ts false).lastcmd = none := by
  refine ⟨?_, ?_, ?_, ?_, ?_, ?_⟩
  · rw [signal_char]
    simp
  · rw [signal_launched_false]
  · rw [signal_launched_true, signal_launched_false, signal_runId]
  · simp [termIterate]
  · simp [termIterate]
  · simp [termIterate]

/-- A concrete compiled-pattern match function: the semantics of the
anchored pattern matching exactly the base name `main.go`. -/
def exMatcher : String → Bool := fun s => s == "main.go"

/-- A concrete qualifying-looking event: a `put` of `/w/main.go` under
the working directory `/w`. -/
def exEv : LogEvent := { name := "/w/main.go", op := "put", id := 3 }

/-- Claim C7 counterexample: an event whose operation is `put`, whose
path lies under the working directory and whose base name matches the
pattern nevertheless does not qualify and enqueues nothing, because the
code matches the pattern against the full path, not the base name. -/
theorem c7_counterexample :
    exEv.op = "put"
    ∧ hasPrefixGo exEv.name "/w" = true
    ∧ exMatcher (baseName exEv.name) = true
    ∧ qualifies exMatcher "/w" exEv = false
    ∧ notifyStep exMatcher "/w" exEv none = none := by
  decide

/-- Claim C7 (amended): a notification event qualifies if and only if
its name is nonempty, its operation kind is `put`, its path lies under
the working directory, and the full subject path (not its base name)
matches the `-only` pattern; a qualifying event attempts the
non-blocking enqueue and a non-qualifying event has no side effect. -/
theorem c7_qualification (m : String → Bool) (pwd : String) (e : LogEvent)
    (pending : Option (Option LogEvent)) :
    (qualifies m pwd e = true
      ↔ (¬ e.name = "" ∧ e.op = "put" ∧ hasPrefixGo e.name pwd = true
          ∧ m e.name = true))
    ∧ (qualifies m pwd e = false → notifyStep m pwd e pending = pending)
    ∧ (qualifies m pwd e = true →
        notifyStep m pwd e pending = offer pending (some e)) := by
  refine ⟨?_, ?_, ?_⟩
  · simp [qualifies, and_assoc]
  · intro h
    simp [notifyStep, h]
  · intro h
    simp [notifyStep, h]

theorem c7_qualification_witness :
    notifyStep exMatcher "/w"
        { name := "/w/README.md", op := "put", id := 3 } (some none)
      = some none :=
  (c7_qualification exMatcher "/w"
      { name := "/w/README.md", op := "put", id := 3 } (some none)).2.1
    (by decide)

/-- Claim C8: the non-blocking enqueue on the one-slot restart channel
never blocks (it is a total function of the channel state): on an empty
channel the new context becomes the single pending signal, and on a full
channel the new context is dropped and the pending signal is unchanged
— the first context of a burst wins. -/
theorem c8_offer_nonblocking (c q : Option LogEvent) :
    offer (none : Option (Option LogEvent)) c = some c
    ∧ offer (some q) c = some q :=
  ⟨rfl, rfl⟩

/-- Claim C9: for every ambient environment `E`, the built invocation
environment for a trigger context `e` is `E` with all entries under the
three reserved keys removed and the keys `samfile`, `%` and `winid`
re-added bound to the subject path (twice) and the decimal window id;
with no context it is `E` with the reserved keys removed, so no entry of
the result carries a reserved key. -/
theorem c9_env_builder (E : List String) (e : LogEvent) :
    envOf E (some e)
      = E.filter (fun v => !reservedKey (keyOf v))
        ++ ["samfile=" ++ e.name, "%=" ++ e.name,
            "winid=" ++ toString e.id]
    ∧ envOf E none = E.filter (fun v => !reservedKey (keyOf v))
    ∧ (envOf E none).all (fun v => !reservedKey (keyOf v)) = true := by
  refine ⟨rfl, rfl, ?_⟩
  simp [envOf, List.all_eq_true, List.mem_filter]

/-- Claim C10: in windowed mode, every supervisor iteration erases the
entire window body and writes the single header line before attempting
the start, so after the iteration the visible body is exactly the header
line — followed only by the start-failure line when the start failed —
and nothing written by any earlier run remains visible. -/
theorem c10_clear_before_start (args : List String) (s : WatchState)
    (ok : Bool) (err : String) :
    renderBody ((step args s (Act.signal ok err)).sink)
      = if ok then [headerText args]
        else [headerText args, errLineText args err] := by
  rw [signal_char]
  cases ok <;>
    simp [renderBody, renderOp, List.foldl_append]

end Watch
